import Mathlib

/-!
Verification of the orchestra-imap server (an Express/ImapFlow proxy that scans a
mailbox for PDF attachments) against its natural-language specification.

The source of authority is the current revision of the server
(src/unnamed/part_000, first document): its `extractPdfAttachments` walker,
the `/search` and `/search-stream` scan loops, the `effectiveDaysBack`
clamping expression, and the `/attachment` download-validate-retry loop.
JavaScript values are embedded shallowly:

* JS strings are `String`; a missing (`undefined`) string field is the empty
  string, which coincides with JS truthiness (`s || t` is `t` exactly when
  `s` is `""`).
* `Buffer` payloads are `List Nat` (byte values); `buffer.toString('utf-8')`
  on ASCII payloads is modelled as byte-to-char decoding.
* JS numbers used as counters, UIDs and day counts are `Nat` (or `Int` for
  `daysBack`, which a caller may send negative).
* Fallible collaborator calls are `Except String` values; network outcomes
  are oracle functions passed as arguments.
* Wall-clock quantities (ETA, emails-per-second) are not modelled; the
  fields of emitted events that depend only on counters are kept.
-/

/-! ## MIME structure trees and the PDF-attachment walker
Source: `extractPdfAttachments` (src/unnamed/part_000 lines 621-655). -/

/-- A node of a parsed IMAP BODYSTRUCTURE tree, as consumed by the walker:
`part.type`, `part.subtype`, `part.dispositionParameters?.filename`,
`part.parameters?.name`, `part.size`, `part.encoding`, `part.childNodes`.
Missing string fields are `""`, missing `size` is handled by the walker
(`part.size || 0` — we keep `size : Nat` with 0 for missing). -/
inductive MimeNode where
  | mk (type : String) (subtype : String)
       (dispositionFilename : String) (parameterName : String)
       (size : Nat) (encoding : String)
       (childNodes : List MimeNode)

def MimeNode.type : MimeNode → String
  | .mk v _ _ _ _ _ _ => v

def MimeNode.subtype : MimeNode → String
  | .mk _ v _ _ _ _ _ => v

def MimeNode.dispositionFilename : MimeNode → String
  | .mk _ _ v _ _ _ _ => v

def MimeNode.parameterName : MimeNode → String
  | .mk _ _ _ v _ _ _ => v

def MimeNode.size : MimeNode → Nat
  | .mk _ _ _ _ v _ _ => v

def MimeNode.encoding : MimeNode → String
  | .mk _ _ _ _ _ v _ => v

def MimeNode.childNodes : MimeNode → List MimeNode
  | .mk _ _ _ _ _ _ v => v

/-- The descriptor pushed for each PDF hit:
`{filename, mimeType, size, partId, encoding}`. -/
structure PdfAttachmentDescriptor where
  filename : String
  mimeType : String
  size : Nat
  partId : String
  encoding : String
deriving DecidableEq

/-- JS `s.toLowerCase()` restricted to ASCII (all strings in play are ASCII). -/
def jsToLower (s : String) : String :=
  String.mk (s.data.map Char.toLower)

/-- JS `s.endsWith(suffix)` as a character-list suffix test. -/
def jsEndsWith (s suffix : String) : Bool :=
  suffix.data.isSuffixOf s.data

/-- JS `s.startsWith(pre)` as a character-list prefix test. -/
def jsStartsWith (s pre : String) : Bool :=
  pre.data.isPrefixOf s.data

/-- `` `${part.type || ''}/${part.subtype || ''}` ``.toLowerCase()`. -/
def mimeTypeOf (t : MimeNode) : String :=
  jsToLower (t.type ++ "/" ++ t.subtype)

/-- `part.dispositionParameters?.filename || part.parameters?.name || ''`. -/
def resolvedFilename (t : MimeNode) : String :=
  if t.dispositionFilename == "" then t.parameterName else t.dispositionFilename

/-- `path ? `${path}.${index + 1}` : `${index + 1}`` with `i` already 1-based. -/
def childPath (path : String) (i : Nat) : String :=
  if path == "" then Nat.repr i else path ++ "." ++ Nat.repr i

/-- The body of the walker's push: the (zero- or one-element) descriptor list a
single node contributes.  Matches the classification
`mimeType === 'application/pdf' || filename.toLowerCase().endsWith('.pdf')`
and the pushed record, including the `filename || 'document.pdf'` and
`path || '1'` defaults. -/
def nodeHit (t : MimeNode) (path : String) : List PdfAttachmentDescriptor :=
  if (mimeTypeOf t == "application/pdf") || jsEndsWith (jsToLower (resolvedFilename t)) ".pdf" then
    [{ filename := if resolvedFilename t == "" then "document.pdf" else resolvedFilename t
       mimeType := mimeTypeOf t
       size := t.size
       partId := if path == "" then "1" else path
       encoding := t.encoding }]
  else
    []

mutual

/-- The recursive `walk(part, path)` closure of `extractPdfAttachments`:
the node's own hit followed by the hits of its children in order. -/
def walkAux : MimeNode → String → List PdfAttachmentDescriptor
  | .mk ty st df pn sz enc children, path =>
      nodeHit (.mk ty st df pn sz enc children) path ++ walkChildren children path 1

/-- `part.childNodes.forEach((child, index) => walk(child, childPath))`, with
`i` the 1-based index of the head of the remaining list. -/
def walkChildren : List MimeNode → String → Nat → List PdfAttachmentDescriptor
  | [], _, _ => []
  | c :: cs, path, i => walkAux c (childPath path i) ++ walkChildren cs path (i + 1)

end

/-- `extractPdfAttachments(bodyStructure)`: `walk(bodyStructure)` starting from
the empty path accumulator; a missing (`undefined`) structure short-circuits
to no attachments (`if (!part) return`). -/
def extractPdfAttachments : Option MimeNode → List PdfAttachmentDescriptor
  | none => []
  | some t => walkAux t ""

/-- The scenario tree of the spec:
`multipart/mixed[ text/plain, application/pdf(filename="inv.pdf") ]`. -/
def scenarioTree : MimeNode :=
  .mk "multipart" "mixed" "" "" 0 ""
    [ .mk "text" "plain" "" "" 100 "7bit" []
    , .mk "application" "pdf" "inv.pdf" "" 5000 "base64" [] ]

/-- The construction of a child path as the spec words it: child index `i`
(1-based) at parent path `p` has path `p + "." + i` if `p` is non-empty,
else `i` alone.  (Spec-worded twin of `childPath`, for the refinement
comparison in claim C1.) -/
def partPathSpec (p : String) (i : Nat) : String :=
  if p = "" then Nat.repr i else p ++ "." ++ Nat.repr i

/-! ### Structural lemmas about the walker -/

/-- Any per-descriptor property that holds of every `walkAux` call on a child
holds of every descriptor produced by `walkChildren`. -/
theorem walkChildren_sub (C : PdfAttachmentDescriptor → Prop) :
    ∀ (cs : List MimeNode) (path : String) (i : Nat),
      (∀ c ∈ cs, ∀ p, ∀ d ∈ walkAux c p, C d) →
      ∀ d ∈ walkChildren cs path i, C d := by
  intro cs
  induction cs with
  | nil => intro path i _ d hd; simp [walkChildren] at hd
  | cons c cs ih =>
    intro path i h d hd
    rw [walkChildren] at hd
    rcases List.mem_append.mp hd with h1 | h1
    · exact h c (by simp) _ d h1
    · exact ih path (i + 1) (fun c2 hc2 => h c2 (by simp [hc2])) d h1

/-- Every descriptor returned by the walk is the hit of some node at some
accumulated path: the walk only reclassifies, it never invents records. -/
theorem walkAux_origin :
    ∀ (n : Nat) (t : MimeNode), sizeOf t ≤ n → ∀ (p : String), ∀ d ∈ walkAux t p,
      ∃ t2 p2, d ∈ nodeHit t2 p2 := by
  intro n
  induction n with
  | zero =>
    intro t ht
    exfalso
    cases t with
    | mk ty st df pn sz enc children => simp at ht
  | succ n ih =>
    intro t ht p d hd
    cases t with
    | mk ty st df pn sz enc children =>
      rw [walkAux] at hd
      rcases List.mem_append.mp hd with h1 | h1
      · exact ⟨_, _, h1⟩
      · refine walkChildren_sub (fun d2 => ∃ t2 p2, d2 ∈ nodeHit t2 p2) children p 1 ?_ d h1
        intro c hc p2 d2 hd2
        have hlt : sizeOf c < sizeOf children := List.sizeOf_lt_of_mem hc
        have hsz : sizeOf children < sizeOf (MimeNode.mk ty st df pn sz enc children) := by
          simp
        exact ih c (by omega) p2 d2 hd2

/-- Origination, stated at the entry point. -/
theorem extractPdfAttachments_origin (o : Option MimeNode) (d : PdfAttachmentDescriptor)
    (hd : d ∈ extractPdfAttachments o) : ∃ t2 p2, d ∈ nodeHit t2 p2 := by
  cases o with
  | none => simp [extractPdfAttachments] at hd
  | some t => exact walkAux_origin (sizeOf t) t le_rfl "" d hd

/-- What membership in a node's hit tells us about the descriptor. -/
theorem nodeHit_mem (t : MimeNode) (p : String) (d : PdfAttachmentDescriptor)
    (hd : d ∈ nodeHit t p) :
    ((mimeTypeOf t == "application/pdf")
        || jsEndsWith (jsToLower (resolvedFilename t)) ".pdf") = true ∧
    d.filename = (if resolvedFilename t == "" then "document.pdf" else resolvedFilename t) ∧
    d.mimeType = mimeTypeOf t := by
  rw [nodeHit] at hd
  split at hd
  · rw [List.mem_singleton] at hd
    subst hd
    refine ⟨by assumption, rfl, rfl⟩
  · simp at hd

/-! ### Claim theorems for the walker (C1, C2, C9) -/

/-- Claim C1: on the structure tree
`multipart/mixed[ text/plain, application/pdf(filename="inv.pdf") ]` the walk
returns exactly one descriptor, with filename `"inv.pdf"` and partId `"2"`;
and the walker's child-path construction coincides with the spec's PartPath
invariant (`p + "." + i` for 1-based child index `i` under non-empty parent
path `p`, bare `i` under the empty root accumulator). -/
theorem c1_walker_scenario_and_path_invariant :
    extractPdfAttachments (some scenarioTree) =
      [{ filename := "inv.pdf", mimeType := "application/pdf", size := 5000,
         partId := "2", encoding := "base64" }] ∧
    ∀ (p : String) (i : Nat), childPath p i = partPathSpec p i := by
  constructor
  · decide
  · intro p i
    unfold childPath partPathSpec
    by_cases hp : p = "" <;> simp [hp]

/-- A multipart node whose resolved filename does not end in `.pdf`: a tree
refuting claim C2, since the walker never tests `isMultipart` before pushing. -/
def multipartNamedPdfTree : MimeNode :=
  .mk "multipart" "mixed" "evil.pdf" "" 0 ""
    [ .mk "text" "plain" "" "" 10 "7bit" [] ]

/-- Claim C2 counterexample: a multipart container carrying the filename
`"evil.pdf"` IS reported by the walk — the returned descriptor list contains
an entry whose mimeType starts with `multipart/`. -/
theorem c2_counterexample_multipart_reported :
    (extractPdfAttachments (some multipartNamedPdfTree)).any
      (fun d => jsStartsWith d.mimeType "multipart/") = true := by
  decide

/-- Claim C2 (amended): a multipart container node is reported only when its
resolved filename ends in `.pdf` (case-insensitively); the MIME-type test
alone never matches a container, so a container without such a filename is
never included. -/
theorem c2_amended_multipart_only_with_pdf_name
    (o : Option MimeNode) (d : PdfAttachmentDescriptor)
    (hd : d ∈ extractPdfAttachments o)
    (hmp : jsStartsWith d.mimeType "multipart/" = true) :
    jsEndsWith (jsToLower d.filename) ".pdf" = true := by
  obtain ⟨t2, p2, h⟩ := extractPdfAttachments_origin o d hd
  obtain ⟨hcond, hfn, hmt⟩ := nodeHit_mem t2 p2 d h
  rcases Bool.or_eq_true_iff.mp hcond with hpdf | hext
  · rw [beq_iff_eq] at hpdf
    rw [hmt, hpdf] at hmp
    exact absurd hmp (by decide)
  · have hne : resolvedFilename t2 ≠ "" := by
      intro h0
      rw [h0] at hext
      exact absurd hext (by decide)
    rw [hfn, if_neg (by simpa using hne)]
    exact hext

/-- The descriptor the walker produces for the container of
`multipartNamedPdfTree`. -/
def multipartContainerDesc : PdfAttachmentDescriptor :=
  { filename := "evil.pdf", mimeType := "multipart/mixed", size := 0,
    partId := "1", encoding := "" }

/-- Claim C2 (amended) witness: at the concrete container tree. -/
theorem c2_amended_witness :
    jsEndsWith (jsToLower multipartContainerDesc.filename) ".pdf" = true :=
  c2_amended_multipart_only_with_pdf_name (some multipartNamedPdfTree)
    multipartContainerDesc (by decide) (by decide)

/-- A PDF leaf with no resolvable filename (no disposition filename, no
content-parameter name). -/
def nakedPdfTree : MimeNode :=
  .mk "application" "pdf" "" "" 0 "" []

/-- The descriptor the walker produces for `nakedPdfTree`: synthetic name,
root part id. -/
def nakedPdfDesc : PdfAttachmentDescriptor :=
  { filename := "document.pdf", mimeType := "application/pdf", size := 0,
    partId := "1", encoding := "" }

/-- Claim C9 counterexample: on a PDF node with unresolvable filename the walk
itself reports `"document.pdf"`, not the empty string — the synthetic-name
substitution happens inside the walker. -/
theorem c9_counterexample_walker_substitutes :
    extractPdfAttachments (some nakedPdfTree) = [nakedPdfDesc] ∧
    nakedPdfDesc.filename ≠ "" := by
  refine ⟨by decide, by decide⟩

/-- Claim C9 (amended): the synthetic name is substituted inside the walker:
no descriptor it returns ever carries an empty filename, and a PDF node whose
filename cannot be resolved is reported as `"document.pdf"` by the walk
itself. -/
theorem c9_amended_walker_filename_nonempty :
    (∀ (o : Option MimeNode) (d : PdfAttachmentDescriptor),
        d ∈ extractPdfAttachments o → d.filename ≠ "") ∧
    extractPdfAttachments (some nakedPdfTree) = [nakedPdfDesc] := by
  constructor
  · intro o d hd
    obtain ⟨t2, p2, h⟩ := extractPdfAttachments_origin o d hd
    obtain ⟨_, hfn, _⟩ := nodeHit_mem t2 p2 d h
    rw [hfn]
    by_cases hc : resolvedFilename t2 = ""
    · rw [if_pos (by simpa using hc)]
      decide
    · rw [if_neg (by simpa using hc)]
      exact hc
  · decide

/-- Claim C9 (amended) witness: at the concrete no-name PDF leaf. -/
theorem c9_amended_witness : nakedPdfDesc.filename ≠ "" :=
  c9_amended_walker_filename_nonempty.1 (some nakedPdfTree) nakedPdfDesc (by decide)

/-! ## The scan loops
Source: `/search` (src/unnamed/part_000 lines 285-354) and `/search-stream`
(lines 98-280).  A fetched message carries the fields the loops read:
`msg.uid`, `msg.envelope.subject`, `msg.envelope.from?.[0]`,
`msg.envelope.date?.toISOString()` (kept abstract as an optional string) and
`msg.bodyStructure`. -/

/-- One entry of `envelope.from`. -/
structure MailAddress where
  name : String
  mailbox : String
  host : String
deriving DecidableEq

/-- `formatAddress(addr)` (lines 658-663). -/
def formatAddress : Option MailAddress → String
  | none => ""
  | some a =>
    let email := a.mailbox ++ "@" ++ a.host
    if a.name == "" then email else a.name ++ " <" ++ email ++ ">"

/-- A message as yielded by `client.fetch(..., {envelope, bodyStructure, uid})`. -/
structure FetchedMessage where
  uid : Nat
  subject : String
  fromAddr : Option MailAddress
  date : Option String
  bodyStructure : Option MimeNode

/-- The record pushed into `messages` for a PDF-bearing message. -/
structure PdfMessage where
  uid : Nat
  subject : String
  fromField : String
  date : Option String
  attachments : List PdfAttachmentDescriptor
deriving DecidableEq

/-- Builds the pushed record from a fetched message and its attachments. -/
def mkPdfMessage (m : FetchedMessage) (atts : List PdfAttachmentDescriptor) : PdfMessage :=
  { uid := m.uid, subject := m.subject, fromField := formatAddress m.fromAddr,
    date := m.date, attachments := atts }

/-- `extractPdfAttachments(msg.bodyStructure).length > 0`. -/
def hasPdf (m : FetchedMessage) : Bool :=
  decide (0 < (extractPdfAttachments m.bodyStructure).length)

/-- The three accumulators of the non-streaming `/search` loop. -/
structure SearchState where
  messages : List PdfMessage
  totalEmailsScanned : Nat
  totalWithPdf : Nat

/-- The body of the `/search` per-message iteration (lines 324-338):
`totalEmailsScanned++`; if attachments were found, `totalWithPdf++` and, when
`messages.length < maxResults`, push the message record. -/
def searchStep (maxResults : Nat) (s : SearchState) (m : FetchedMessage) : SearchState :=
  let atts := extractPdfAttachments m.bodyStructure
  if 0 < atts.length then
    if s.messages.length < maxResults then
      { messages := s.messages ++ [mkPdfMessage m atts]
        totalEmailsScanned := s.totalEmailsScanned + 1
        totalWithPdf := s.totalWithPdf + 1 }
    else
      { s with totalEmailsScanned := s.totalEmailsScanned + 1
               totalWithPdf := s.totalWithPdf + 1 }
  else
    { s with totalEmailsScanned := s.totalEmailsScanned + 1 }

/-- The `/search` iteration over all fetched messages.  The source fetches in
chunks of 100 UIDs (`FETCH_BATCH_SIZE`), but the per-message processing is
chunk-independent, so the loop is modelled over the concatenated fetch
results. -/
def searchLoop (maxResults : Nat) : List FetchedMessage → SearchState → SearchState
  | [], s => s
  | m :: ms, s => searchLoop maxResults ms (searchStep maxResults s m)

/-- The `/search` scan starting from the empty accumulators. -/
def searchScan (msgs : List FetchedMessage) (maxResults : Nat) : SearchState :=
  searchLoop maxResults msgs { messages := [], totalEmailsScanned := 0, totalWithPdf := 0 }

theorem searchStep_spec (maxResults : Nat) (s : SearchState) (m : FetchedMessage) :
    (searchStep maxResults s m).totalEmailsScanned = s.totalEmailsScanned + 1 ∧
    (searchStep maxResults s m).totalWithPdf
      = s.totalWithPdf + (if hasPdf m then 1 else 0) ∧
    (searchStep maxResults s m).messages.length
      = (if hasPdf m = true ∧ s.messages.length < maxResults
         then s.messages.length + 1 else s.messages.length) ∧
    (∀ pm ∈ (searchStep maxResults s m).messages,
        pm ∈ s.messages ∨ pm.attachments ≠ []) := by
  unfold searchStep
  by_cases hp : 0 < (extractPdfAttachments m.bodyStructure).length
  · have hb : hasPdf m = true := by simpa [hasPdf] using hp
    rw [if_pos hp]
    by_cases hl : s.messages.length < maxResults
    · rw [if_pos hl]
      refine ⟨rfl, by simp [hb], by simp [hb, hl], ?_⟩
      intro pm hpm
      rcases List.mem_append.mp hpm with h | h
      · exact Or.inl h
      · right
        rw [List.mem_singleton] at h
        subst h
        simpa [mkPdfMessage] using List.length_pos.mp hp
    · rw [if_neg hl]
      exact ⟨rfl, by simp [hb], by simp [hb, hl], fun pm hpm => Or.inl hpm⟩
  · have hb : hasPdf m = false := by simpa [hasPdf] using hp
    rw [if_neg hp]
    exact ⟨rfl, by simp [hb], by simp [hb], fun pm hpm => Or.inl hpm⟩

theorem searchLoop_spec (maxResults : Nat) :
    ∀ (ms : List FetchedMessage) (s : SearchState),
      s.messages.length ≤ maxResults →
      (∀ pm ∈ s.messages, pm.attachments ≠ []) →
      (searchLoop maxResults ms s).totalEmailsScanned = s.totalEmailsScanned + ms.length ∧
      (searchLoop maxResults ms s).totalWithPdf = s.totalWithPdf + ms.countP hasPdf ∧
      (searchLoop maxResults ms s).messages.length
        = min maxResults (s.messages.length + ms.countP hasPdf) ∧
      (∀ pm ∈ (searchLoop maxResults ms s).messages, pm.attachments ≠ []) := by
  intro ms
  induction ms with
  | nil =>
    intro s h1 h2
    refine ⟨by simp [searchLoop], by simp [searchLoop], ?_, by simpa [searchLoop] using h2⟩
    simp [searchLoop]
    omega
  | cons m ms ih =>
    intro s h1 h2
    obtain ⟨e1, e2, e3, e4⟩ := searchStep_spec maxResults s m
    have hlen : (searchStep maxResults s m).messages.length ≤ maxResults := by
      rw [e3]
      split <;> omega
    have hatt : ∀ pm ∈ (searchStep maxResults s m).messages, pm.attachments ≠ [] :=
      fun pm h => (e4 pm h).elim (h2 pm) id
    obtain ⟨i1, i2, i3, i4⟩ := ih (searchStep maxResults s m) hlen hatt
    rw [searchLoop]
    refine ⟨?_, ?_, ?_, i4⟩
    · rw [i1, e1]
      simp
      omega
    · rw [i2, e2, List.countP_cons]
      by_cases hb : hasPdf m
      · simp [hb]
        omega
      · simp [hb]
    · rw [i3, e3, List.countP_cons]
      by_cases hb : hasPdf m = true <;>
        by_cases hl : s.messages.length < maxResults <;> simp [hb, hl] <;> omega

/-- `countP` over a replicated list. -/
theorem countP_replicate_aux {α : Type} (p : α → Bool) (n : Nat) (a : α) :
    (List.replicate n a).countP p = if p a then n else 0 := by
  induction n with
  | zero => simp
  | succ n ih =>
    rw [List.replicate_succ, List.countP_cons, ih]
    by_cases hp : p a <;> simp [hp]

/-- A PDF-bearing sample message. -/
def samplePdfMsg : FetchedMessage :=
  { uid := 1, subject := "invoice", fromAddr := none, date := none,
    bodyStructure := some (.mk "application" "pdf" "a.pdf" "" 10 "base64" []) }

/-- A sample message with no attachments. -/
def samplePlainMsg : FetchedMessage :=
  { uid := 2, subject := "hello", fromAddr := none, date := none,
    bodyStructure := some (.mk "text" "plain" "" "" 10 "7bit" []) }

/-- The spec scenario mailbox: 120 messages of which 6 bear PDFs. -/
def scenarioMailbox : List FetchedMessage :=
  List.replicate 6 samplePdfMsg ++ List.replicate 114 samplePlainMsg

/-- Claim C4: the cap limits only the returned list — for every scan,
`totalEmailsScanned` is the number of fetched messages, `totalWithPdf` the
number of PDF-bearing ones, the returned list holds `min maxResults`
of the PDF-bearing ones (and only PDF-bearing ones); the 120-message /
6-PDF / maxResults-5 scenario yields 5 / 6 / 120. -/
theorem c4_cap_limits_payload_not_counting :
    (∀ (msgs : List FetchedMessage) (maxResults : Nat),
        (searchScan msgs maxResults).totalEmailsScanned = msgs.length ∧
        (searchScan msgs maxResults).totalWithPdf = msgs.countP hasPdf ∧
        (searchScan msgs maxResults).messages.length
          = min maxResults (msgs.countP hasPdf) ∧
        (∀ pm ∈ (searchScan msgs maxResults).messages, pm.attachments ≠ [])) ∧
    (searchScan scenarioMailbox 5).messages.length = 5 ∧
    (searchScan scenarioMailbox 5).totalWithPdf = 6 ∧
    (searchScan scenarioMailbox 5).totalEmailsScanned = 120 := by
  have hgen : ∀ (msgs : List FetchedMessage) (maxResults : Nat),
      (searchScan msgs maxResults).totalEmailsScanned = msgs.length ∧
      (searchScan msgs maxResults).totalWithPdf = msgs.countP hasPdf ∧
      (searchScan msgs maxResults).messages.length
        = min maxResults (msgs.countP hasPdf) ∧
      (∀ pm ∈ (searchScan msgs maxResults).messages, pm.attachments ≠ []) := by
    intro msgs maxResults
    have h := searchLoop_spec maxResults msgs
      { messages := [], totalEmailsScanned := 0, totalWithPdf := 0 }
      (by simp) (by simp)
    simpa [searchScan] using h
  have hcount : scenarioMailbox.countP hasPdf = 6 := by
    have hpdf : hasPdf samplePdfMsg = true := by decide
    have hplain : hasPdf samplePlainMsg = false := by decide
    rw [scenarioMailbox, List.countP_append, countP_replicate_aux, countP_replicate_aux,
        hpdf, hplain]
    simp
  have hlen : scenarioMailbox.length = 120 := by
    rw [scenarioMailbox]
    simp
  refine ⟨hgen, ?_, ?_, ?_⟩
  · rw [(hgen scenarioMailbox 5).2.2.1, hcount]
    decide
  · rw [(hgen scenarioMailbox 5).2.1, hcount]
  · rw [(hgen scenarioMailbox 5).1, hlen]

/-- Claim C4 witness: a concrete returned message is PDF-bearing. -/
theorem c4_witness :
    (mkPdfMessage samplePdfMsg
        (extractPdfAttachments samplePdfMsg.bodyStructure)).attachments ≠ [] :=
  (c4_cap_limits_payload_not_counting.1 [samplePdfMsg] 5).2.2.2 _ (by decide)

/-! ## The daysBack clamp (C6, C10)
Source: `const effectiveDaysBack = daysBack >= 3650 ? 3650 : (daysBack || 365)`
at src/unnamed/part_000 line 147 (`/search-stream`) and line 298 (`/search`);
the search bound is `sinceDate = now` shifted back by `effectiveDaysBack`
days.  `daysBack` is modelled as `Int` (a caller may send any number);
`daysBack || 365` replaces exactly the falsy value 0. -/

/-- Line 147 (`/search-stream`). -/
def effectiveDaysBackStream (daysBack : Int) : Int :=
  if 3650 ≤ daysBack then 3650 else if daysBack = 0 then 365 else daysBack

/-- Line 298 (`/search`). -/
def effectiveDaysBackSearch (daysBack : Int) : Int :=
  if 3650 ≤ daysBack then 3650 else if daysBack = 0 then 365 else daysBack

/-- `sinceDate.setDate(sinceDate.getDate() - effectiveDaysBack)` as arithmetic
on a day number (`/search-stream`). -/
def sinceDateStream (today daysBack : Int) : Int :=
  today - effectiveDaysBackStream daysBack

/-- The same date bound in `/search`. -/
def sinceDateSearch (today daysBack : Int) : Int :=
  today - effectiveDaysBackSearch daysBack

/-- Claim C6: for every requested `daysBack >= 1`, both operations use
`min(daysBack, 3650)` days back, and `daysBack = 3650` and
`daysBack = 100000` produce the same effective date bound. -/
theorem c6_daysBack_clamped_at_3650 :
    (∀ d : Int, 1 ≤ d →
        effectiveDaysBackStream d = min d 3650 ∧
        effectiveDaysBackSearch d = min d 3650) ∧
    effectiveDaysBackStream 3650 = effectiveDaysBackStream 100000 ∧
    effectiveDaysBackSearch 3650 = effectiveDaysBackSearch 100000 ∧
    (∀ today : Int,
        sinceDateStream today 3650 = sinceDateStream today 100000 ∧
        sinceDateSearch today 3650 = sinceDateSearch today 100000) := by
  refine ⟨?_, by decide, by decide, ?_⟩
  · intro d hd
    constructor
    · unfold effectiveDaysBackStream
      split
      · omega
      · split <;> omega
    · unfold effectiveDaysBackSearch
      split
      · omega
      · split <;> omega
  · intro today
    unfold sinceDateStream sinceDateSearch effectiveDaysBackStream effectiveDaysBackSearch
    norm_num

/-- Claim C6 witness: at `daysBack = 4000`. -/
theorem c6_witness :
    (1 : Int) ≤ 4000 ∧
    (effectiveDaysBackStream 4000 = min 4000 3650 ∧
     effectiveDaysBackSearch 4000 = min 4000 3650) :=
  ⟨by decide, c6_daysBack_clamped_at_3650.1 4000 (by decide)⟩

/-- Claim C10: the falsy value `daysBack = 0` falls through `daysBack || 365`
to the default 365 in both operations, so a 0-day window scans the last 365
days instead of an empty range. -/
theorem c10_zero_daysBack_defaults_to_365 :
    effectiveDaysBackStream 0 = 365 ∧ effectiveDaysBackSearch 0 = 365 ∧
    (∀ today : Int,
        sinceDateStream today 0 = today - 365 ∧
        sinceDateSearch today 0 = today - 365) := by
  refine ⟨by decide, by decide, ?_⟩
  intro today
  unfold sinceDateStream sinceDateSearch effectiveDaysBackStream effectiveDaysBackSearch
  norm_num

/-! ## The /attachment download validation and retry loop (C7, C8, C3)
Source: src/unnamed/part_000 lines 368-507.  The transport work of one
attempt — `client.download` by the requested part, falling back to
re-reading the structure and trying each discovered PDF part (lines
388-456) — is a collaborator interaction, abstracted as an oracle
`dl : Nat → Except String (List Nat)` giving each attempt's raw outcome.
The validation of a delivered buffer (lines 458-478) and the retry loop
with backoff and final error (lines 375-378, 491-507) are modelled
exactly. -/

/-- `buffer[0] === 0x25 && buffer[1] === 0x50 && buffer[2] === 0x44 &&
buffer[3] === 0x46` — on a buffer shorter than 4, the out-of-range reads
are `undefined` and the comparison fails. -/
def pdfMagic (buf : List Nat) : Bool :=
  match buf with
  | b0 :: b1 :: b2 :: b3 :: _ =>
      (b0 == 0x25) && (b1 == 0x50) && (b2 == 0x44) && (b3 == 0x46)
  | _ => false

/-- `buffer.toString('utf-8')` for ASCII payloads: byte-to-char decoding. -/
def asciiOfBytes (bs : List Nat) : String :=
  String.mk (bs.map Char.ofNat)

/-- `buffer.slice(0, 100).toString('utf-8')` followed by `.substring(0, 50)`
(for ASCII payloads, character positions coincide with byte positions). -/
def previewText (buf : List Nat) : String :=
  asciiOfBytes ((buf.take 100).take 50)

/-- The message of the error thrown at line 477 when the magic check fails:
it interpolates the payload's length and its decoded 50-character preview. -/
def notPdfMessage (buf : List Nat) : String :=
  "Downloaded content is not a valid PDF (got " ++ Nat.repr buf.length ++
    " bytes, starts with: " ++ previewText buf ++ ")"

/-- Lines 458-478: a delivered buffer is returned only after the emptiness
and magic-byte checks; otherwise the attempt throws (becomes an error).  A
transport error propagates unchanged. -/
def attachmentValidate : Except String (List Nat) → Except String (List Nat)
  | .error e => .error e
  | .ok buf =>
    if buf.length = 0 then .error "Downloaded attachment is empty"
    else if pdfMagic buf then .ok buf
    else .error (notPdfMessage buf)

/-- The `for (attempt = 1; attempt <= MAX_RETRIES; attempt++)` loop over the
remaining attempt numbers: on a failed attempt that is not the last, wait
`1000 * Math.pow(2, attempt - 1)` ms (the waits performed are collected in
the second component) and continue; the error of the last attempt is kept
(`lastError`). -/
def retryLoop (dl : Nat → Except String (List Nat)) :
    List Nat → Except String (List Nat) × List Nat
  | [] => (.error "", [])
  | k :: rest =>
    match attachmentValidate (dl k) with
    | .ok buf => (.ok buf, [])
    | .error e =>
      if rest = [] then (.error e, [])
      else
        ((retryLoop dl rest).1, 1000 * 2 ^ (k - 1) :: (retryLoop dl rest).2)

/-- The `/attachment` retry protocol: `MAX_RETRIES = 3` attempts, and after
exhaustion the 500 response carries
`lastError?.message || 'Download failed after retries'`. -/
def attachmentRetry (dl : Nat → Except String (List Nat)) :
    Except String (List Nat) × List Nat :=
  match retryLoop dl [1, 2, 3] with
  | (.ok buf, ws) => (.ok buf, ws)
  | (.error e, ws) =>
      (.error (if e == "" then "Download failed after retries" else e), ws)

/-- Claim C7: a delivered payload is returned iff it is non-empty and starts
with the four bytes `%PDF`; the `%PDF...`-prefixed payload is accepted, the
`<html`-prefixed one and the empty one are rejected as failures of the
attempt. -/
theorem c7_payload_validated_by_magic_bytes :
    (∀ (buf r : List Nat),
        attachmentValidate (.ok buf) = .ok r ↔
          (buf ≠ [] ∧ pdfMagic buf = true ∧ r = buf)) ∧
    attachmentValidate (.ok [0x25, 0x50, 0x44, 0x46, 0x0A])
      = .ok [0x25, 0x50, 0x44, 0x46, 0x0A] ∧
    attachmentValidate (.ok [0x3C, 0x68, 0x74, 0x6D, 0x6C])
      = .error (notPdfMessage [0x3C, 0x68, 0x74, 0x6D, 0x6C]) ∧
    attachmentValidate (.ok []) = .error "Downloaded attachment is empty" := by
  refine ⟨?_, by rfl, by rfl, by rfl⟩
  intro buf r
  unfold attachmentValidate
  by_cases h0 : buf.length = 0
  · simp [h0, List.length_eq_zero.mp h0]
  · by_cases hm : pdfMagic buf
    · simp only [if_neg h0, if_pos hm]
      constructor
      · intro h
        refine ⟨fun hnil => h0 (by simp [hnil]), hm, ?_⟩
        cases h
        rfl
      · intro ⟨_, _, hr⟩
        rw [hr]
    · simp only [if_neg h0, if_neg hm]
      constructor
      · intro h
        cases h
      · intro ⟨_, hm2, _⟩
        exact absurd hm2 hm

/-- The retry loop reads nothing of the oracle beyond the listed attempts. -/
theorem retryLoop_congr (dl dl2 : Nat → Except String (List Nat)) :
    ∀ ks : List Nat, (∀ k ∈ ks, dl k = dl2 k) → retryLoop dl ks = retryLoop dl2 ks := by
  intro ks
  induction ks with
  | nil => intro _; rfl
  | cons k rest ih =>
    intro h
    rw [retryLoop, retryLoop, h k (by simp)]
    cases hv : attachmentValidate (dl2 k) with
    | ok b => rfl
    | error e => simp [ih (fun k2 hk2 => h k2 (by simp [hk2]))]

/-- Claim C8: at most 3 attempts are made (the outcome depends only on
attempts 1-3), each performed wait is the next step of the exponential
backoff schedule 1000ms, 2000ms (base 1000, factor 2), and when all three
attempts fail the operation answers with the last underlying error. -/
theorem c8_three_attempts_exponential_backoff :
    (∀ dl : Nat → Except String (List Nat),
        (attachmentRetry dl).2.isPrefixOf [1000 * 2 ^ 0, 1000 * 2 ^ 1] = true ∧
        (∀ dl2 : Nat → Except String (List Nat),
            dl 1 = dl2 1 → dl 2 = dl2 2 → dl 3 = dl2 3 →
            attachmentRetry dl = attachmentRetry dl2)) ∧
    (∀ (dl : Nat → Except String (List Nat)) (e1 e2 e3 : String),
        attachmentValidate (dl 1) = .error e1 →
        attachmentValidate (dl 2) = .error e2 →
        attachmentValidate (dl 3) = .error e3 → e3 ≠ "" →
        attachmentRetry dl = (.error e3, [1000, 2000])) := by
  constructor
  · intro dl
    constructor
    · cases h1 : attachmentValidate (dl 1) with
      | ok b1 => simp [attachmentRetry, retryLoop, h1]
      | error e1 =>
        cases h2 : attachmentValidate (dl 2) with
        | ok b2 => simp [attachmentRetry, retryLoop, h1, h2]
        | error e2 =>
          cases h3 : attachmentValidate (dl 3) with
          | ok b3 => simp [attachmentRetry, retryLoop, h1, h2, h3]
          | error e3 => simp [attachmentRetry, retryLoop, h1, h2, h3]
    · intro dl2 g1 g2 g3
      unfold attachmentRetry
      rw [retryLoop_congr dl dl2 [1, 2, 3] (by
        intro k hk
        simp at hk
        rcases hk with rfl | rfl | rfl
        · exact g1
        · exact g2
        · exact g3)]
  · intro dl e1 e2 e3 h1 h2 h3 hne
    have hr : retryLoop dl [1, 2, 3] = (.error e3, [1000, 2000]) := by
      simp [retryLoop, h1, h2, h3]
    have hnemsg : (e3 == "") = false := beq_eq_false_iff_ne.mpr hne
    simp [attachmentRetry, hr, hnemsg]

/-- The `<html` payload of the spec scenario, as bytes. -/
def htmlBytes : List Nat := [0x3C, 0x68, 0x74, 0x6D, 0x6C]

/-- A transport oracle that always delivers the `<html` payload. -/
def htmlDl : Nat → Except String (List Nat) := fun _ => .ok htmlBytes

/-- Claim C8 witness: the always-`<html` oracle fails all three attempts and
reports the last validation error after waits of 1000ms and 2000ms. -/
theorem c8_witness :
    attachmentRetry htmlDl = (.error (notPdfMessage htmlBytes), [1000, 2000]) :=
  c8_three_attempts_exponential_backoff.2 htmlDl
    (notPdfMessage htmlBytes) (notPdfMessage htmlBytes) (notPdfMessage htmlBytes)
    rfl rfl rfl (by decide)

/-! ## Claim C3: error text and payload bytes -/

/-- Characters of a concatenation. -/
theorem string_data_append (s t : String) : (s ++ t).data = s.data ++ t.data := by
  rcases s with ⟨ds⟩
  rcases t with ⟨dt⟩
  rfl

/-- The characters of the validation-failure message, decomposed around the
payload preview it interpolates. -/
theorem notPdfMessage_data (buf : List Nat) :
    (notPdfMessage buf).data =
      ("Downloaded content is not a valid PDF (got ".data ++
        (Nat.repr buf.length).data ++ " bytes, starts with: ".data) ++
      (previewText buf).data ++ ")".data := by
  rw [notPdfMessage]
  simp [string_data_append]

/-- The validation-failure message is never the empty string (so it is what
the 500 response carries, not the fallback text). -/
theorem notPdfMessage_ne_empty (buf : List Nat) : notPdfMessage buf ≠ "" := by
  intro h
  have h2 := congrArg String.data h
  rw [notPdfMessage_data] at h2
  have hc : ("" : String).data = [] := rfl
  rw [hc] at h2
  rcases List.append_eq_nil.mp h2 with ⟨h3, _⟩
  rcases List.append_eq_nil.mp h3 with ⟨h4, _⟩
  rcases List.append_eq_nil.mp h4 with ⟨h5, _⟩
  rcases List.append_eq_nil.mp h5 with ⟨h6, _⟩
  exact absurd h6 (by decide)

/-- Claim C3 counterexample: when the server downloads the `<html` payload,
the HTTP 500 error text of `/attachment` (the message of the last validation
error) contains the decoded bytes of the payload itself. -/
theorem c3_counterexample_payload_bytes_in_error :
    (attachmentRetry htmlDl).1 = .error (notPdfMessage htmlBytes) ∧
    ∃ pre post,
      (notPdfMessage htmlBytes).data = pre ++ (asciiOfBytes htmlBytes).data ++ post := by
  refine ⟨by rfl,
    "Downloaded content is not a valid PDF (got 5 bytes, starts with: ".data,
    ")".data, by decide⟩

/-- Claim C3 (amended): credentials are never part of the modelled error
construction (it is a function of the payload alone), but raw payload bytes
do reach the caller: for every non-empty payload failing the magic check,
the final `/attachment` error is the validation message, and that message
embeds the decoded first 50 characters of the payload. -/
theorem c3_amended_validation_error_embeds_payload (buf : List Nat)
    (hm : pdfMagic buf = false) (hne : buf ≠ []) :
    (attachmentRetry (fun _ => Except.ok buf)).1 = .error (notPdfMessage buf) ∧
    ∃ pre post, (notPdfMessage buf).data = pre ++ (previewText buf).data ++ post := by
  constructor
  · have hv : attachmentValidate (.ok buf) = .error (notPdfMessage buf) := by
      have h0 : ¬(buf.length = 0) := fun h0 => hne (List.length_eq_zero.mp h0)
      simp only [attachmentValidate]
      rw [if_neg h0, if_neg (by simp [hm])]
    have hr : retryLoop (fun _ => Except.ok buf) [1, 2, 3]
        = (.error (notPdfMessage buf), [1000, 2000]) := by
      simp [retryLoop, hv]
    have hnemsg : (notPdfMessage buf == "") = false :=
      beq_eq_false_iff_ne.mpr (notPdfMessage_ne_empty buf)
    simp [attachmentRetry, hr, hnemsg]
  · refine ⟨"Downloaded content is not a valid PDF (got ".data ++
      (Nat.repr buf.length).data ++ " bytes, starts with: ".data, ")".data, ?_⟩
    rw [notPdfMessage_data]

/-- Claim C3 (amended) witness: at the concrete `<html` payload. -/
theorem c3_amended_witness :
    (attachmentRetry (fun _ => Except.ok htmlBytes)).1 = .error (notPdfMessage htmlBytes) ∧
    ∃ pre post, (notPdfMessage htmlBytes).data = pre ++ (previewText htmlBytes).data ++ post :=
  c3_amended_validation_error_embeds_payload htmlBytes (by decide) (by decide)

/-! ## The streaming scan `/search-stream` (C5)
Source: src/unnamed/part_000 lines 98-280.  The request parameters the loop
reads are `resumeAfterUid` (`null` by default; JS truthiness makes the value
0 behave like `null` in `if (resumeAfterUid && ...)`), `maxResults`,
`previousScanned` and the candidate UID count `allUids.length`.  The loop
runs over the messages the collaborator yields for the batched fetches
(chunking by `FETCH_BATCH_SIZE = 100` only feeds the unmodelled
time-estimate fields, so the fetch results are concatenated).  The
`skippedToResume` counter of the source is incremented on resume skips but
never read by any output, and is omitted from the state.  Events carry the
counter-derived fields; `etaSeconds` and `emailsPerSecond` are wall-clock
quantities and are not modelled. -/

/-- The scan-request fields the streaming loop consumes. -/
structure StreamConfig where
  resumeAfterUid : Option Nat
  maxResults : Nat
  previousScanned : Nat
  candidateCount : Nat

/-- `resumeAfterUid && msg.uid >= resumeAfterUid` under JS truthiness. -/
def resumeSkip : Option Nat → Nat → Bool
  | none, _ => false
  | some u, uid => (!(u == 0)) && decide (u ≤ uid)

/-- The accumulators of the streaming loop (lines 151-156, minus the
write-only `skippedToResume`). -/
structure StreamState where
  messages : List PdfMessage
  pending : List PdfMessage
  totalEmailsScanned : Nat
  totalWithPdf : Nat
  lastProcessedUid : Option Nat

/-- The events the loop emits (`start` precedes the loop and repeats request
fields; it carries no per-message data and is not needed here). -/
inductive ScanEvent where
  | pdfBatch (messages : List PdfMessage) (totalWithPdfSoFar : Nat)
  | progress (scanned : Nat) (totalCandidates : Nat) (withPdf : Nat)
      (percentComplete : Nat) (lastUid : Option Nat)
  | complete (totalEmailsScanned : Nat) (totalWithPdf : Nat) (lastUid : Option Nat)
deriving DecidableEq

/-- The messages of a `pdf_batch` event. -/
def ScanEvent.batchMessages : ScanEvent → List PdfMessage
  | .pdfBatch ms _ => ms
  | _ => []

/-- The `scanned` field of a `progress` event. -/
def ScanEvent.progressScanned : ScanEvent → Option Nat
  | .progress sc _ _ _ _ => some sc
  | _ => none

/-- `Math.min(99, Math.round((totalEmailsScanned / allUids.length) * 100))`,
with the float division-and-round modelled as exact rational rounding. -/
def percentCompleteOf (scanned n : Nat) : Nat :=
  min 99 ((200 * scanned + n) / (2 * n))

/-- Lines 205-227: the attachment-classification half of one iteration —
`totalWithPdf++` when PDFs were found; push into `messages` and
`pendingMessages` while under `maxResults`; splice out a `pdf_batch` event
when the pending batch reaches `PDF_BATCH_SIZE = 10`. -/
def streamAccumulate (cfg : StreamConfig) (s1 : StreamState) (m : FetchedMessage)
    (atts : List PdfAttachmentDescriptor) : StreamState × List ScanEvent :=
  if 0 < atts.length then
    let s1b := { s1 with totalWithPdf := s1.totalWithPdf + 1 }
    if s1b.messages.length < cfg.maxResults then
      let pdfMsg := mkPdfMessage m atts
      let s1c := { s1b with messages := s1b.messages ++ [pdfMsg]
                            pending := s1b.pending ++ [pdfMsg] }
      if 10 ≤ s1c.pending.length then
        ({ s1c with pending := [] }, [ScanEvent.pdfBatch s1c.pending s1c.totalWithPdf])
      else (s1c, [])
    else (s1b, [])
  else (s1, [])

/-- One processed (non-skipped) iteration of the loop (lines 201-248):
`totalEmailsScanned++`, `lastProcessedUid = msg.uid`, classification and
accumulation, then a `progress` event every `PROGRESS_INTERVAL = 50`
messages scanned in this invocation. -/
def streamProcess (cfg : StreamConfig) (s : StreamState) (m : FetchedMessage) :
    StreamState × List ScanEvent :=
  let s1 : StreamState :=
    { s with totalEmailsScanned := s.totalEmailsScanned + 1
             lastProcessedUid := some m.uid }
  let sb := streamAccumulate cfg s1 m (extractPdfAttachments m.bodyStructure)
  (sb.1,
    sb.2 ++
      (if (sb.1.totalEmailsScanned - cfg.previousScanned) % 50 == 0 then
        [ScanEvent.progress sb.1.totalEmailsScanned cfg.candidateCount sb.1.totalWithPdf
          (percentCompleteOf sb.1.totalEmailsScanned cfg.candidateCount)
          sb.1.lastProcessedUid]
      else []))

/-- One iteration including the resume check (lines 194-199): a message at or
above the resume point is skipped entirely. -/
def streamStep (cfg : StreamConfig) (s : StreamState) (m : FetchedMessage) :
    StreamState × List ScanEvent :=
  if resumeSkip cfg.resumeAfterUid m.uid then (s, []) else streamProcess cfg s m

/-- The loop over all fetched messages, collecting emitted events in order. -/
def streamLoop (cfg : StreamConfig) :
    List FetchedMessage → StreamState → StreamState × List ScanEvent
  | [], s => (s, [])
  | m :: ms, s =>
    ((streamLoop cfg ms (streamStep cfg s m).1).1,
      (streamStep cfg s m).2 ++ (streamLoop cfg ms (streamStep cfg s m).1).2)

/-- The whole `/search-stream` scan after the `start` event: counters start
from the previous partial run (lines 153-155, with `lastProcessedUid`
initialised to `resumeAfterUid`), the loop runs, a non-empty pending batch is
flushed (lines 253-259), and the `complete` event closes the stream (lines
264-271). -/
def streamInit (cfg : StreamConfig) (previousWithPdf : Nat) : StreamState :=
  { messages := [], pending := [], totalEmailsScanned := cfg.previousScanned,
    totalWithPdf := previousWithPdf, lastProcessedUid := cfg.resumeAfterUid }

def streamScan (cfg : StreamConfig) (previousWithPdf : Nat)
    (msgs : List FetchedMessage) : StreamState × List ScanEvent :=
  let r := streamLoop cfg msgs (streamInit cfg previousWithPdf)
  (r.1,
    r.2 ++
      (if 0 < r.1.pending.length
       then [ScanEvent.pdfBatch r.1.pending r.1.totalWithPdf] else []) ++
      [ScanEvent.complete r.1.totalEmailsScanned r.1.totalWithPdf r.1.lastProcessedUid])

/-! ### Step lemmas -/

theorem streamAccumulate_state (cfg : StreamConfig) (s1 : StreamState)
    (m : FetchedMessage) (atts : List PdfAttachmentDescriptor) :
    (streamAccumulate cfg s1 m atts).1.totalEmailsScanned = s1.totalEmailsScanned ∧
    (streamAccumulate cfg s1 m atts).1.totalWithPdf
      = s1.totalWithPdf + (if 0 < atts.length then 1 else 0) ∧
    (streamAccumulate cfg s1 m atts).1.messages.length
      = (if 0 < atts.length ∧ s1.messages.length < cfg.maxResults
         then s1.messages.length + 1 else s1.messages.length) ∧
    (streamAccumulate cfg s1 m atts).1.lastProcessedUid = s1.lastProcessedUid := by
  unfold streamAccumulate
  by_cases hp : 0 < atts.length
  · simp only [if_pos hp]
    by_cases hl : s1.messages.length < cfg.maxResults
    · simp only [if_pos hl]
      split <;> simp [hp, hl]
    · simp only [if_neg hl]
      simp [hp, hl]
  · simp [hp]

theorem streamAccumulate_mem (cfg : StreamConfig) (s1 : StreamState)
    (m : FetchedMessage) (atts : List PdfAttachmentDescriptor) :
    (∀ pm ∈ (streamAccumulate cfg s1 m atts).1.pending,
        pm ∈ s1.pending ∨ pm = mkPdfMessage m atts) ∧
    (∀ e ∈ (streamAccumulate cfg s1 m atts).2, ∀ pm ∈ e.batchMessages,
        pm ∈ s1.pending ∨ pm = mkPdfMessage m atts) := by
  unfold streamAccumulate
  by_cases hp : 0 < atts.length
  · simp only [if_pos hp]
    by_cases hl : s1.messages.length < cfg.maxResults
    · simp only [if_pos hl]
      split
      · constructor
        · intro pm hpm
          simp at hpm
        · intro e he pm hpm
          simp at he
          rw [he] at hpm
          simp [ScanEvent.batchMessages] at hpm
          exact hpm
      · constructor
        · intro pm hpm
          simp at hpm
          rcases hpm with h | h
          · exact Or.inl h
          · exact Or.inr h
        · intro e he
          simp at he
    · simp only [if_neg hl]
      exact ⟨fun pm hpm => Or.inl hpm, by simp⟩
  · simp only [if_neg hp]
    exact ⟨fun pm hpm => Or.inl hpm, by simp⟩

theorem streamAccumulate_events_batch (cfg : StreamConfig) (s1 : StreamState)
    (m : FetchedMessage) (atts : List PdfAttachmentDescriptor) :
    ∀ e ∈ (streamAccumulate cfg s1 m atts).2, e.progressScanned = none := by
  unfold streamAccumulate
  by_cases hp : 0 < atts.length
  · simp only [if_pos hp]
    by_cases hl : s1.messages.length < cfg.maxResults
    · simp only [if_pos hl]
      split
      · intro e he
        simp at he
        rw [he]
        rfl
      · intro e he
        simp at he
    · simp only [if_neg hl]
      intro e he
      simp at he
  · simp only [if_neg hp]
    intro e he
    simp at he

theorem streamProcess_state (cfg : StreamConfig) (s : StreamState) (m : FetchedMessage) :
    (streamProcess cfg s m).1.totalEmailsScanned = s.totalEmailsScanned + 1 ∧
    (streamProcess cfg s m).1.totalWithPdf = s.totalWithPdf + (if hasPdf m then 1 else 0) ∧
    (streamProcess cfg s m).1.messages.length
      = (if hasPdf m = true ∧ s.messages.length < cfg.maxResults
         then s.messages.length + 1 else s.messages.length) := by
  have h1 : (streamProcess cfg s m).1
      = (streamAccumulate cfg
          { s with totalEmailsScanned := s.totalEmailsScanned + 1
                   lastProcessedUid := some m.uid } m
          (extractPdfAttachments m.bodyStructure)).1 := rfl
  obtain ⟨a1, a2, a3, a4⟩ := streamAccumulate_state cfg
    { s with totalEmailsScanned := s.totalEmailsScanned + 1
             lastProcessedUid := some m.uid }
    m (extractPdfAttachments m.bodyStructure)
  refine ⟨?_, ?_, ?_⟩
  · rw [h1, a1]
  · rw [h1, a2]
    by_cases hb : 0 < (extractPdfAttachments m.bodyStructure).length <;>
      simp [hasPdf, hb]
  · rw [h1, a3]
    by_cases hb : 0 < (extractPdfAttachments m.bodyStructure).length <;>
      by_cases hl : s.messages.length < cfg.maxResults <;> simp [hasPdf, hb, hl]

theorem streamProcess_mem (cfg : StreamConfig) (s : StreamState) (m : FetchedMessage) :
    (∀ pm ∈ (streamProcess cfg s m).1.pending, pm ∈ s.pending ∨ pm.uid = m.uid) ∧
    (∀ e ∈ (streamProcess cfg s m).2, ∀ pm ∈ e.batchMessages,
        pm ∈ s.pending ∨ pm.uid = m.uid) := by
  have hacc := streamAccumulate_mem cfg
    { s with totalEmailsScanned := s.totalEmailsScanned + 1
             lastProcessedUid := some m.uid }
    m (extractPdfAttachments m.bodyStructure)
  constructor
  · intro pm hpm
    rcases hacc.1 pm hpm with h | h
    · exact Or.inl h
    · exact Or.inr (congrArg PdfMessage.uid h)
  · intro e he pm hpm
    simp only [streamProcess] at he
    rcases List.mem_append.mp he with h | h
    · rcases hacc.2 e h pm hpm with h2 | h2
      · exact Or.inl h2
      · exact Or.inr (congrArg PdfMessage.uid h2)
    · revert h
      split
      · intro h
        rw [List.mem_singleton] at h
        subst h
        simp [ScanEvent.batchMessages] at hpm
      · intro h
        simp at h

theorem streamProcess_progress (cfg : StreamConfig) (s : StreamState) (m : FetchedMessage) :
    ∀ e ∈ (streamProcess cfg s m).2, ∀ k, e.progressScanned = some k →
      k = s.totalEmailsScanned + 1 := by
  intro e he k hk
  simp only [streamProcess] at he
  rcases List.mem_append.mp he with h | h
  · rw [streamAccumulate_events_batch _ _ _ _ e h] at hk
    cases hk
  · revert h
    split
    · intro h
      rw [List.mem_singleton] at h
      subst h
      simp [ScanEvent.progressScanned] at hk
      rw [← hk]
      exact (streamAccumulate_state cfg _ m _).1
    · intro h
      simp at h

/-! ### Loop lemmas -/

/-- Skipped messages contribute nothing at all: the loop on the full fetch
list equals the loop on the list with the skipped messages dropped. -/
theorem streamLoop_filter (cfg : StreamConfig) :
    ∀ (ms : List FetchedMessage) (s : StreamState),
      streamLoop cfg ms s
        = streamLoop cfg (ms.filter (fun m => !resumeSkip cfg.resumeAfterUid m.uid)) s := by
  intro ms
  induction ms with
  | nil => intro s; rfl
  | cons m ms ih =>
    intro s
    rw [List.filter_cons]
    by_cases hm : resumeSkip cfg.resumeAfterUid m.uid
    · have hstep : streamStep cfg s m = (s, []) := by simp [streamStep, hm]
      simp only [hm, Bool.not_true, Bool.false_eq_true, if_false]
      rw [streamLoop, hstep]
      rw [ih s]
      simp
    · simp only [hm, Bool.not_false, if_true]
      rw [streamLoop, streamLoop, ih ((streamStep cfg s m).1)]

/-- Counter behaviour of the loop when nothing is skipped. -/
theorem streamLoop_counts (cfg : StreamConfig) :
    ∀ (ms : List FetchedMessage) (s : StreamState),
      (∀ m ∈ ms, resumeSkip cfg.resumeAfterUid m.uid = false) →
      s.messages.length ≤ cfg.maxResults →
      (streamLoop cfg ms s).1.totalEmailsScanned = s.totalEmailsScanned + ms.length ∧
      (streamLoop cfg ms s).1.totalWithPdf = s.totalWithPdf + ms.countP hasPdf ∧
      (streamLoop cfg ms s).1.messages.length
        = min cfg.maxResults (s.messages.length + ms.countP hasPdf) := by
  intro ms
  induction ms with
  | nil =>
    intro s h1 h2
    refine ⟨by simp [streamLoop], by simp [streamLoop], ?_⟩
    simp [streamLoop]
    omega
  | cons m ms ih =>
    intro s h1 h2
    have hm : resumeSkip cfg.resumeAfterUid m.uid = false := h1 m (by simp)
    have hstep : streamStep cfg s m = streamProcess cfg s m := by simp [streamStep, hm]
    obtain ⟨p1, p2, p3⟩ := streamProcess_state cfg s m
    have hlen : (streamProcess cfg s m).1.messages.length ≤ cfg.maxResults := by
      rw [p3]
      split <;> omega
    obtain ⟨i1, i2, i3⟩ := ih (streamProcess cfg s m).1
      (fun m2 hm2 => h1 m2 (by simp [hm2])) hlen
    simp only [streamLoop, hstep]
    refine ⟨?_, ?_, ?_⟩
    · rw [i1, p1]
      simp
      omega
    · rw [i2, p2, List.countP_cons]
      by_cases hb : hasPdf m
      · simp [hb]
        omega
      · simp [hb]
    · rw [i3, p3, List.countP_cons]
      by_cases hb : hasPdf m = true <;>
        by_cases hl : s.messages.length < cfg.maxResults <;> simp [hb, hl] <;> omega

/-- If every fetched message has UID below `U` and the pending batch starts
below `U`, every `pdf_batch` event and the final pending batch stay below
`U`. -/
theorem streamLoop_uid_bound (cfg : StreamConfig) (U : Nat) :
    ∀ (ms : List FetchedMessage) (s : StreamState),
      (∀ m ∈ ms, m.uid < U) →
      (∀ pm ∈ s.pending, pm.uid < U) →
      (∀ e ∈ (streamLoop cfg ms s).2, ∀ pm ∈ e.batchMessages, pm.uid < U) ∧
      (∀ pm ∈ (streamLoop cfg ms s).1.pending, pm.uid < U) := by
  intro ms
  induction ms with
  | nil =>
    intro s h1 h2
    exact ⟨by simp [streamLoop], by simpa [streamLoop] using h2⟩
  | cons m ms ih =>
    intro s h1 h2
    have hu : m.uid < U := h1 m (by simp)
    have hstep_pending : ∀ pm ∈ (streamStep cfg s m).1.pending, pm.uid < U := by
      unfold streamStep
      split
      · exact h2
      · intro pm hpm
        rcases (streamProcess_mem cfg s m).1 pm hpm with h | h
        · exact h2 pm h
        · rw [h]
          exact hu
    have hstep_events :
        ∀ e ∈ (streamStep cfg s m).2, ∀ pm ∈ e.batchMessages, pm.uid < U := by
      unfold streamStep
      split
      · simp
      · intro e he pm hpm
        rcases (streamProcess_mem cfg s m).2 e he pm hpm with h | h
        · exact h2 pm h
        · rw [h]
          exact hu
    obtain ⟨iE, iP⟩ := ih (streamStep cfg s m).1
      (fun m2 hm2 => h1 m2 (by simp [hm2])) hstep_pending
    refine ⟨?_, ?_⟩
    · intro e he
      simp only [streamLoop] at he
      rcases List.mem_append.mp he with h | h
      · exact hstep_events e h
      · exact iE e h
    · intro pm hpm
      simp only [streamLoop] at hpm
      exact iP pm hpm

/-- The `scanned` count of every `progress` event is bounded by the number of
messages processed so far. -/
theorem streamLoop_progress_bound (cfg : StreamConfig) :
    ∀ (ms : List FetchedMessage) (s : StreamState),
      ∀ e ∈ (streamLoop cfg ms s).2, ∀ k, e.progressScanned = some k →
        k ≤ s.totalEmailsScanned + ms.length := by
  intro ms
  induction ms with
  | nil =>
    intro s e he
    simp [streamLoop] at he
  | cons m ms ih =>
    intro s e he k hk
    simp only [streamLoop] at he
    have hscan : (streamStep cfg s m).1.totalEmailsScanned ≤ s.totalEmailsScanned + 1 := by
      unfold streamStep
      split
      · simp
      · exact le_of_eq (streamProcess_state cfg s m).1
    rcases List.mem_append.mp he with h | h
    · revert h
      unfold streamStep
      split
      · intro h
        simp at h
      · intro h
        have := streamProcess_progress cfg s m e h k hk
        rw [List.length_cons]
        omega
    · have := ih (streamStep cfg s m).1 e h k hk
      rw [List.length_cons]
      omega

/-- The source's resume guard at a genuine (positive) resume UID is exactly
the complement of the `uid < U` test. -/
theorem resumeSkip_pos (U : Nat) (hU : 0 < U) (uid : Nat) :
    resumeSkip (some U) uid = !decide (uid < U) := by
  show (!(U == 0) && decide (U ≤ uid)) = !decide (uid < U)
  have h1 : (U == 0) = false := by
    simp
    omega
  rw [h1]
  by_cases h : U ≤ uid
  · have h2 : ¬(uid < U) := by omega
    simp [h, h2]
  · have h2 : uid < U := by omega
    simp [h, h2]

/-- `streamScan` unfolded into its loop, flush and `complete` parts. -/
theorem streamScan_split (cfg : StreamConfig) (prevP : Nat) (msgs : List FetchedMessage) :
    streamScan cfg prevP msgs
      = ((streamLoop cfg msgs (streamInit cfg prevP)).1,
         (streamLoop cfg msgs (streamInit cfg prevP)).2 ++
           (if 0 < (streamLoop cfg msgs (streamInit cfg prevP)).1.pending.length
            then [ScanEvent.pdfBatch (streamLoop cfg msgs (streamInit cfg prevP)).1.pending
                   (streamLoop cfg msgs (streamInit cfg prevP)).1.totalWithPdf]
            else []) ++
           [ScanEvent.complete (streamLoop cfg msgs (streamInit cfg prevP)).1.totalEmailsScanned
             (streamLoop cfg msgs (streamInit cfg prevP)).1.totalWithPdf
             (streamLoop cfg msgs (streamInit cfg prevP)).1.lastProcessedUid]) := rfl

/-- Claim C5: in a streaming scan resumed at UID `U` (a genuine UID, hence
positive), every fetched message with `uid >= U` is skipped: it appears in no
`pdf_batch` event, it is counted neither in `totalEmailsScanned` nor in
`totalWithPdf`, and no `progress` event's `scanned` count includes it — the
counters account exactly for the messages with `uid < U`. -/
theorem c5_resume_skips_uids_at_or_above (U prevS prevP maxR n : Nat) (hU : 0 < U)
    (msgs : List FetchedMessage) :
    (∀ e ∈ (streamScan ⟨some U, maxR, prevS, n⟩ prevP msgs).2,
        ∀ pm ∈ e.batchMessages, pm.uid < U) ∧
    (streamScan ⟨some U, maxR, prevS, n⟩ prevP msgs).1.totalEmailsScanned
      = prevS + msgs.countP (fun m => decide (m.uid < U)) ∧
    (streamScan ⟨some U, maxR, prevS, n⟩ prevP msgs).1.totalWithPdf
      = prevP + msgs.countP (fun m => decide (m.uid < U) && hasPdf m) ∧
    (∀ e ∈ (streamScan ⟨some U, maxR, prevS, n⟩ prevP msgs).2, ∀ k,
        e.progressScanned = some k →
        k ≤ prevS + msgs.countP (fun m => decide (m.uid < U))) := by
  have key : streamLoop ⟨some U, maxR, prevS, n⟩ msgs
        (streamInit ⟨some U, maxR, prevS, n⟩ prevP)
      = streamLoop ⟨some U, maxR, prevS, n⟩
          (msgs.filter (fun m => decide (m.uid < U)))
          (streamInit ⟨some U, maxR, prevS, n⟩ prevP) := by
    rw [streamLoop_filter]
    exact congrArg
      (fun l => streamLoop ⟨some U, maxR, prevS, n⟩ l
        (streamInit ⟨some U, maxR, prevS, n⟩ prevP))
      (List.filter_congr (fun m _ => by
        show (!resumeSkip (some U) m.uid) = decide (m.uid < U)
        rw [resumeSkip_pos U hU, Bool.not_not]))
  have hF : ∀ m ∈ msgs.filter (fun m => decide (m.uid < U)), m.uid < U := by
    intro m hm
    have := List.of_mem_filter hm
    simpa using this
  have hFskip : ∀ m ∈ msgs.filter (fun m => decide (m.uid < U)),
      resumeSkip (some U) m.uid = false := by
    intro m hm
    rw [resumeSkip_pos U hU]
    simp [hF m hm]
  have hinitp : ∀ pm ∈ (streamInit ⟨some U, maxR, prevS, n⟩ prevP).pending, pm.uid < U := by
    simp [streamInit]
  have hinitlen : (streamInit ⟨some U, maxR, prevS, n⟩ prevP).messages.length ≤ maxR := by
    simp [streamInit]
  obtain ⟨c1, c2, c3⟩ := streamLoop_counts ⟨some U, maxR, prevS, n⟩
    (msgs.filter (fun m => decide (m.uid < U)))
    (streamInit ⟨some U, maxR, prevS, n⟩ prevP) hFskip hinitlen
  obtain ⟨iE, iP⟩ := streamLoop_uid_bound ⟨some U, maxR, prevS, n⟩ U
    (msgs.filter (fun m => decide (m.uid < U)))
    (streamInit ⟨some U, maxR, prevS, n⟩ prevP) hF hinitp
  have hPB := streamLoop_progress_bound ⟨some U, maxR, prevS, n⟩
    (msgs.filter (fun m => decide (m.uid < U)))
    (streamInit ⟨some U, maxR, prevS, n⟩ prevP)
  rw [streamScan_split, key]
  refine ⟨?_, ?_, ?_, ?_⟩
  · intro e he
    rcases List.mem_append.mp he with h | h
    · rcases List.mem_append.mp h with h1 | h1
      · exact iE e h1
      · revert h1
        split
        · intro h1
          rw [List.mem_singleton] at h1
          subst h1
          intro pm hpm
          exact iP pm hpm
        · intro h1
          simp at h1
    · rw [List.mem_singleton] at h
      subst h
      intro pm hpm
      simp [ScanEvent.batchMessages] at hpm
  · rw [c1, List.countP_eq_length_filter]
    simp [streamInit]
  · rw [c2, List.countP_filter]
    have hc : msgs.countP (fun m => hasPdf m && decide (m.uid < U))
        = msgs.countP (fun m => decide (m.uid < U) && hasPdf m) :=
      List.countP_congr (fun m _ => by rw [Bool.and_comm])
    rw [hc]
    simp [streamInit]
  · intro e he k hk
    rcases List.mem_append.mp he with h | h
    · rcases List.mem_append.mp h with h1 | h1
      · have := hPB e h1 k hk
        rw [List.countP_eq_length_filter]
        simp only [streamInit] at this
        omega
      · revert h1
        split
        · intro h1
          rw [List.mem_singleton] at h1
          subst h1
          simp [ScanEvent.progressScanned] at hk
        · intro h1
          simp at h1
    · rw [List.mem_singleton] at h
      subst h
      simp [ScanEvent.progressScanned] at hk

/-- A PDF-bearing message above the resume point (skipped). -/
def resumeHighMsg : FetchedMessage :=
  { uid := 7, subject := "new invoice", fromAddr := none, date := none,
    bodyStructure := some (.mk "application" "pdf" "b.pdf" "" 11 "base64" []) }

/-- A PDF-bearing message below the resume point (processed). -/
def resumeLowMsg : FetchedMessage :=
  { uid := 3, subject := "old invoice", fromAddr := none, date := none,
    bodyStructure := some (.mk "application" "pdf" "c.pdf" "" 12 "base64" []) }

/-- Claim C5 witness: resuming at UID 5 over one high-UID and one low-UID
message counts only the low one. -/
theorem c5_witness :
    (streamScan ⟨some 5, 10, 2, 2⟩ 1 [resumeHighMsg, resumeLowMsg]).1.totalEmailsScanned
      = 2 + ([resumeHighMsg, resumeLowMsg].countP (fun m => decide (m.uid < 5))) :=
  (c5_resume_skips_uids_at_or_above 5 2 1 10 2 (by decide)
    [resumeHighMsg, resumeLowMsg]).2.1
